import Mathlib

/-!
Shallow embedding of the event registration and ticketing core
(SQLite schema, `CreateEvent`, `RegisterForEvent`, `ConfirmReservation`,
`ReclaimExpiredSeats` and the HTTP handler validation layer).

Rows of the two tables are modelled as records, the database as lists of
rows together with the AUTOINCREMENT counters.  SQL `UPDATE ... WHERE c`
statements are modelled as a `map` over the row list that rewrites exactly
the rows satisfying `c`, with `rowsAffected` the count of such rows.
Time is an explicit natural-number parameter standing for the value of
`datetime('now')`; `expires_at` of a fresh ticket is `now + holdDuration`.
A transaction that aborts returns the caller's original state.
-/

namespace EventAPI

/-- The `status` column of the `tickets` table:
`'reserved'` (pending), `'confirmed'` (finalized), `'cancelled'` (released). -/
inductive TicketStatus where
  | reserved
  | confirmed
  | cancelled
deriving DecidableEq, Repr

/-- A row of the `events` table. -/
structure EventRow where
  id : Nat
  name : String
  totalSpots : Int
  availableSpots : Int
deriving DecidableEq, Repr

/-- A row of the `tickets` table. -/
structure TicketRow where
  id : Nat
  eventId : Nat
  userEmail : String
  idempotencyKey : String
  status : TicketStatus
  expiresAt : Nat
deriving DecidableEq, Repr

/-- The database: the two tables plus the AUTOINCREMENT counters. -/
structure DBState where
  events : List EventRow
  tickets : List TicketRow
  nextEventId : Nat
  nextTicketId : Nat
deriving DecidableEq, Repr

/-- The freshly initialised database (`InitSchema` on an empty file);
AUTOINCREMENT ids start at 1. -/
def DBState.empty : DBState := ⟨[], [], 1, 1⟩

/-- The ticket hold duration: `datetime('now', '+5 minutes')`, in seconds. -/
def holdDuration : Nat := 300

/-- The schema constraint `CHECK (available_spots >= 0)` on the `events`
table.  It is the only CHECK constraint on that table. -/
def eventsCheck (e : EventRow) : Bool := decide (0 ≤ e.availableSpots)

/-- `CreateEvent`: `INSERT INTO events (name, total_spots, available_spots)
VALUES (?, ?, ?)` with `available_spots = total_spots`.  The insert fails
(and the row is not stored) only if the schema CHECK rejects it. -/
def createEvent (st : DBState) (name : String) (totalSpots : Int) :
    Option EventRow × DBState :=
  if eventsCheck ⟨st.nextEventId, name, totalSpots, totalSpots⟩ then
    (some ⟨st.nextEventId, name, totalSpots, totalSpots⟩,
     { st with
        events := st.events ++ [⟨st.nextEventId, name, totalSpots, totalSpots⟩],
        nextEventId := st.nextEventId + 1 })
  else
    (none, st)

/-- Outcome of `HandleCreateEvent` (POST /events). -/
inductive CreateResult where
  | created (ev : EventRow)
  | badRequest
  | serverError
deriving DecidableEq, Repr

/-- `HandleCreateEvent`: rejects an empty name or `total_spots <= 0` with
HTTP 400 before touching the database, otherwise calls `CreateEvent`. -/
def handleCreateEvent (st : DBState) (name : String) (totalSpots : Int) :
    CreateResult × DBState :=
  if name = "" ∨ totalSpots ≤ 0 then
    (.badRequest, st)
  else
    match createEvent st name totalSpots with
    | (some ev, st1) => (.created ev, st1)
    | (none, st1) => (.serverError, st1)

/-- Outcome of `RegisterForEvent`: a ticket id, `ErrSoldOut`, or
`ErrAlreadyRegistered`. -/
inductive RegisterResult where
  | ok (ticketId : Nat)
  | soldOut
  | alreadyRegistered
deriving DecidableEq, Repr

/-- The WHERE clause of the optimistic decrement
`UPDATE events SET available_spots = available_spots - 1
WHERE id = ? AND available_spots > 0`. -/
def decrementHits (eventID : Nat) (e : EventRow) : Bool :=
  decide (e.id = eventID ∧ 0 < e.availableSpots)

/-- The row list after the optimistic decrement. -/
def decrementSpots (events : List EventRow) (eventID : Nat) : List EventRow :=
  events.map fun e =>
    if decrementHits eventID e then { e with availableSpots := e.availableSpots - 1 } else e

/-- `RowsAffected` of the optimistic decrement. -/
def decrementRowsAffected (events : List EventRow) (eventID : Nat) : Nat :=
  events.countP (decrementHits eventID)

/-- The uniqueness constraints guarding the ticket insert:
`idempotency_key TEXT UNIQUE` and `UNIQUE(event_id, user_email)`.
True when the insert would violate one of them. -/
def insertConflict (tickets : List TicketRow) (eventID : Nat) (email key : String) : Bool :=
  tickets.any fun t =>
    decide (t.idempotencyKey = key ∨ (t.eventId = eventID ∧ t.userEmail = email))

/-- `RegisterForEvent`: inside one transaction, (1) the optimistic
conditional decrement — zero rows affected aborts with `ErrSoldOut`;
(2) `INSERT INTO tickets ... VALUES (?, ?, ?, 'reserved',
datetime('now', '+5 minutes'))` — a uniqueness violation aborts the whole
transaction (rolling back the decrement) with `ErrAlreadyRegistered`;
(3) commit, returning the new ticket id. -/
def registerForEvent (st : DBState) (now : Nat) (eventID : Nat) (email key : String) :
    RegisterResult × DBState :=
  if decrementRowsAffected st.events eventID = 0 then
    (.soldOut, st)
  else
    if insertConflict st.tickets eventID email key then
      (.alreadyRegistered, st)
    else
      (.ok st.nextTicketId,
       { st with
          events := decrementSpots st.events eventID,
          tickets := st.tickets ++
            [⟨st.nextTicketId, eventID, email, key, .reserved, now + holdDuration⟩],
          nextTicketId := st.nextTicketId + 1 })

/-- Outcome of `ConfirmReservation`: `nil`, or the single collapsed error
"ticket is expired, already confirmed, or does not exist". -/
inductive ConfirmResult where
  | ok
  | failed
deriving DecidableEq, Repr

/-- The WHERE clause of `UPDATE tickets SET status = 'confirmed' WHERE
id = ? AND user_email = ? AND status = 'reserved' AND
expires_at > datetime('now')`. -/
def confirmHits (now : Nat) (ticketID : Nat) (email : String) (t : TicketRow) : Bool :=
  decide (t.id = ticketID ∧ t.userEmail = email ∧
    t.status = TicketStatus.reserved ∧ now < t.expiresAt)

/-- The ticket table after the conditional confirm update. -/
def confirmUpdated (st : DBState) (now : Nat) (ticketID : Nat) (email : String) :
    List TicketRow :=
  st.tickets.map fun t =>
    if confirmHits now ticketID email t then { t with status := .confirmed } else t

/-- `ConfirmReservation`: runs the conditional update above, then reports
an error exactly when it affected zero rows. -/
def confirmReservation (st : DBState) (now : Nat) (ticketID : Nat) (email : String) :
    ConfirmResult × DBState :=
  if st.tickets.countP (confirmHits now ticketID email) = 0 then
    (.failed, { st with tickets := confirmUpdated st now ticketID email })
  else
    (.ok, { st with tickets := confirmUpdated st now ticketID email })

/-- The WHERE clause of the reclaim candidate query `SELECT id, event_id
FROM tickets WHERE status = 'reserved' AND expires_at <= datetime('now')`. -/
def reclaimHits (now : Nat) (t : TicketRow) : Bool :=
  decide (t.status = TicketStatus.reserved ∧ t.expiresAt ≤ now)

/-- The `(id, event_id)` pairs returned by the reclaim candidate query. -/
def expiredCandidates (st : DBState) (now : Nat) : List (Nat × Nat) :=
  (st.tickets.filter (reclaimHits now)).map fun t => (t.id, t.eventId)

/-- One iteration of the reclaim loop body, from the source: the
unconditional `UPDATE tickets SET status = 'cancelled' WHERE id = ?`
followed by the unconditional
`UPDATE events SET available_spots = available_spots + 1 WHERE id = ?`. -/
def reclaimOne (st : DBState) (ticketID eventID : Nat) : DBState :=
  { st with
      tickets := st.tickets.map fun t =>
        if t.id = ticketID then { t with status := .cancelled } else t,
      events := st.events.map fun e =>
        if e.id = eventID then { e with availableSpots := e.availableSpots + 1 } else e }

/-- The reclaim loop over the candidate list, counting one reclaimed seat
per candidate processed. -/
def reclaimLoop (st : DBState) : List (Nat × Nat) → DBState × Nat
  | [] => (st, 0)
  | c :: rest =>
    let q := reclaimLoop (reclaimOne st c.1 c.2) rest
    (q.1, q.2 + 1)

/-- `ReclaimExpiredSeats`: inside one transaction, select the expired
reserved tickets, then run the loop body on each candidate. -/
def reclaimExpiredSeats (st : DBState) (now : Nat) : DBState × Nat :=
  reclaimLoop st (expiredCandidates st now)

/-- Number of holds for `eventID` whose status is reserved or confirmed
(pending or finalized). -/
def isActive : TicketStatus → Bool
  | .reserved => true
  | .confirmed => true
  | .cancelled => false

/-- Count of active (pending-or-finalized) holds for an event. -/
def activeCount (tickets : List TicketRow) (eventID : Nat) : Nat :=
  tickets.countP fun t => decide (t.eventId = eventID) && isActive t.status

/-- Cumulative effect of the reclaim loop on a ticket row: cancelled as
soon as its id occurs among the processed candidates. -/
def cancelIfIn (ids : List Nat) (t : TicketRow) : TicketRow :=
  if t.id ∈ ids then { t with status := .cancelled } else t

/-- Cumulative effect of the reclaim loop on an event row: the counter is
incremented once per processed candidate naming this event. -/
def bumpBy (cands : List (Nat × Nat)) (e : EventRow) : EventRow :=
  { e with availableSpots :=
      e.availableSpots + (cands.countP fun c => decide (c.2 = e.id)) }

/-- The states reachable from a fresh database by committed operations:
event creation (through the handler's validation), registration,
confirmation and reclaim cycles, at arbitrary times and arguments. -/
inductive Reachable : DBState → Prop
  | init : Reachable DBState.empty
  | create (st : DBState) (name : String) (cap : Int) :
      Reachable st → Reachable (handleCreateEvent st name cap).2
  | register (st : DBState) (now eventID : Nat) (email key : String) :
      Reachable st → Reachable (registerForEvent st now eventID email key).2
  | confirm (st : DBState) (now ticketID : Nat) (email : String) :
      Reachable st → Reachable (confirmReservation st now ticketID email).2
  | reclaim (st : DBState) (now : Nat) :
      Reachable st → Reachable (reclaimExpiredSeats st now).1

/-- Well-formedness: primary keys are unique and below the AUTOINCREMENT
counters, ticket rows reference created events, the schema CHECK holds,
and the cross-entity capacity invariant holds. -/
structure WF (st : DBState) : Prop where
  eventsNodup : (st.events.map EventRow.id).Nodup
  ticketsNodup : (st.tickets.map TicketRow.id).Nodup
  eventsLt : ∀ e ∈ st.events, e.id < st.nextEventId
  ticketsLt : ∀ t ∈ st.tickets, t.id < st.nextTicketId
  ticketsEventLt : ∀ t ∈ st.tickets, t.eventId < st.nextEventId
  capacity : ∀ e ∈ st.events,
    e.availableSpots = e.totalSpots - (activeCount st.tickets e.id : Int)
  availNonneg : ∀ e ∈ st.events, 0 ≤ e.availableSpots

/-- Tally of outcomes over a sequence of registration calls. -/
structure RegStats where
  succeeded : Nat
  soldOut : Nat
  already : Nat
deriving DecidableEq, Repr

/-- Run `RegisterForEvent` once per `(email, idempotency key)` request,
tallying the outcomes, as the concurrency test does. -/
def registerAll (st : DBState) (now eventID : Nat) :
    List (String × String) → DBState × RegStats
  | [] => (st, ⟨0, 0, 0⟩)
  | r :: rest =>
    let p := registerForEvent st now eventID r.1 r.2
    let q := registerAll p.2 now eventID rest
    match p.1 with
    | .ok _ => (q.1, ⟨q.2.succeeded + 1, q.2.soldOut, q.2.already⟩)
    | .soldOut => (q.1, ⟨q.2.succeeded, q.2.soldOut + 1, q.2.already⟩)
    | .alreadyRegistered => (q.1, ⟨q.2.succeeded, q.2.soldOut, q.2.already + 1⟩)

/-- Modelled from the spec: the WHERE clause of the conditional transition
`TransitionHold(id, pending → released)`, which matches only a row that is
still pending. -/
def transitionHoldHits (ticketID : Nat) (t : TicketRow) : Bool :=
  decide (t.id = ticketID ∧ t.status = TicketStatus.reserved)

/-- Modelled from the spec: one reclaim candidate processed with the
conditional transition; a `NoMatchingRow` outcome skips the candidate
without releasing capacity, otherwise one capacity unit is released.
The Boolean records whether the candidate was actually processed. -/
def reclaimOneCond (st : DBState) (ticketID eventID : Nat) : DBState × Bool :=
  if st.tickets.countP (transitionHoldHits ticketID) = 0 then
    (st, false)
  else
    ({ st with
        tickets := st.tickets.map fun t =>
          if transitionHoldHits ticketID t then { t with status := .cancelled } else t,
        events := st.events.map fun e =>
          if e.id = eventID then { e with availableSpots := e.availableSpots + 1 } else e },
     true)

/-- Modelled from the spec: the reclaim cycle with independent
per-candidate conditional transitions, counting only processed
candidates; a failed candidate does not abort the rest. -/
def reclaimLoopCond (st : DBState) : List (Nat × Nat) → DBState × Nat
  | [] => (st, 0)
  | c :: rest =>
    let p := reclaimOneCond st c.1 c.2
    let q := reclaimLoopCond p.1 rest
    (q.1, q.2 + (if p.2 then 1 else 0))

/-- Modelled from the spec: a reclaim cycle driven by the conditional
pending-to-released transition. -/
def reclaimExpiredSeatsCond (st : DBState) (now : Nat) : DBState × Nat :=
  reclaimLoopCond st (expiredCandidates st now)

/-- Iterated resubmission of the same registration request. -/
def repeatRegister (now eventID : Nat) (email key : String) : Nat → DBState → DBState
  | 0, st => st
  | n + 1, st => repeatRegister now eventID email key n
      (registerForEvent st now eventID email key).2

/-- A small reachable demonstration state: one event of capacity 2 with
one reserved hold. -/
def demoState : DBState :=
  (registerForEvent (handleCreateEvent DBState.empty "gala" 2).2 0 1 "u@x" "k1").2

/-- Demonstration state: a capacity-1 event whose first hold lapsed and
was reclaimed, after which a second holder took the freed seat. -/
def reregState : DBState :=
  (registerForEvent (reclaimExpiredSeats
    (registerForEvent (handleCreateEvent DBState.empty "gala" 1).2 0 1 "u@x" "k1").2
    300).1 301 1 "v@x" "k2").2

theorem reclaimLoop_tickets (cands : List (Nat × Nat)) :
    ∀ st : DBState,
      (reclaimLoop st cands).1.tickets =
        st.tickets.map (cancelIfIn (cands.map Prod.fst)) := by
  induction cands with
  | nil =>
    intro st
    simp only [reclaimLoop, List.map_nil]
    rw [show st.tickets.map (cancelIfIn []) = st.tickets.map id from
      List.map_congr_left (by intro t _; simp [cancelIfIn])]
    simp
  | cons c rest ih =>
    intro st
    simp only [reclaimLoop]
    rw [ih, reclaimOne]
    simp only [List.map_map, List.map_cons]
    refine List.map_congr_left ?_
    intro t _
    simp only [Function.comp_apply]
    by_cases h : t.id = c.1
    · rw [if_pos h]
      show cancelIfIn (rest.map Prod.fst) { t with status := .cancelled } =
        cancelIfIn (c.1 :: rest.map Prod.fst) t
      unfold cancelIfIn
      have hmem : t.id ∈ c.1 :: rest.map Prod.fst := by simp [h]
      rw [if_pos hmem]
      by_cases h2 : t.id ∈ rest.map Prod.fst
      · rw [if_pos (show ({ t with status := .cancelled } : TicketRow).id ∈
          rest.map Prod.fst from h2)]
      · rw [if_neg (show ¬ ({ t with status := .cancelled } : TicketRow).id ∈
          rest.map Prod.fst from h2)]
    · rw [if_neg h]
      unfold cancelIfIn
      have hiff : t.id ∈ c.1 :: rest.map Prod.fst ↔ t.id ∈ rest.map Prod.fst := by
        simp [h]
      by_cases h2 : t.id ∈ rest.map Prod.fst
      · rw [if_pos h2, if_pos (hiff.mpr h2)]
      · rw [if_neg h2, if_neg (fun hc => h2 (hiff.mp hc))]

theorem reclaimLoop_events (cands : List (Nat × Nat)) :
    ∀ st : DBState,
      (reclaimLoop st cands).1.events = st.events.map (bumpBy cands) := by
  induction cands with
  | nil =>
    intro st
    simp only [reclaimLoop]
    rw [show st.events.map (bumpBy []) = st.events.map id from
      List.map_congr_left (by intro e _; simp [bumpBy])]
    simp
  | cons c rest ih =>
    intro st
    simp only [reclaimLoop]
    rw [ih, reclaimOne]
    simp only [List.map_map]
    refine List.map_congr_left ?_
    intro e _
    simp only [Function.comp_apply]
    by_cases h : e.id = c.2
    · rw [if_pos h]
      unfold bumpBy
      simp only [List.countP_cons, EventRow.mk.injEq, true_and]
      have hc : (decide (c.2 = e.id)) = true := by simp [h.symm]
      simp only [hc, if_true]
      omega
    · rw [if_neg h]
      unfold bumpBy
      simp only [List.countP_cons, EventRow.mk.injEq, true_and]
      have hc : (decide (c.2 = e.id)) = false := by
        simp only [decide_eq_false_iff_not]
        exact fun hc => h hc.symm
      simp only [hc, Bool.false_eq_true, if_false]
      omega

theorem reclaimLoop_nextEventId (cands : List (Nat × Nat)) :
    ∀ st : DBState, (reclaimLoop st cands).1.nextEventId = st.nextEventId := by
  induction cands with
  | nil => intro st; simp [reclaimLoop]
  | cons c rest ih => intro st; simp [reclaimLoop, ih, reclaimOne]

theorem reclaimLoop_nextTicketId (cands : List (Nat × Nat)) :
    ∀ st : DBState, (reclaimLoop st cands).1.nextTicketId = st.nextTicketId := by
  induction cands with
  | nil => intro st; simp [reclaimLoop]
  | cons c rest ih => intro st; simp [reclaimLoop, ih, reclaimOne]

theorem reclaimLoop_count (cands : List (Nat × Nat)) :
    ∀ st : DBState, (reclaimLoop st cands).2 = cands.length := by
  induction cands with
  | nil => intro st; simp [reclaimLoop]
  | cons c rest ih => intro st; simp [reclaimLoop, ih]

theorem countP_and_not {α : Type} (l : List α) (p q : α → Bool) :
    l.countP p = l.countP (fun a => p a && q a) + l.countP (fun a => p a && !q a) := by
  induction l with
  | nil => simp
  | cons a l ih =>
    simp only [List.countP_cons]
    by_cases hp : p a = true <;> by_cases hq : q a = true <;>
      simp [hp, hq, ih] <;> omega

theorem decrementSpots_map_id (events : List EventRow) (eventID : Nat) :
    (decrementSpots events eventID).map EventRow.id = events.map EventRow.id := by
  unfold decrementSpots
  rw [List.map_map]
  refine List.map_congr_left ?_
  intro e _
  by_cases h : decrementHits eventID e <;> simp [h]

theorem registerForEvent_soldOut (st : DBState) (now eventID : Nat) (email key : String)
    (h : decrementRowsAffected st.events eventID = 0) :
    registerForEvent st now eventID email key = (.soldOut, st) := by
  simp [registerForEvent, h]

theorem registerForEvent_conflict (st : DBState) (now eventID : Nat) (email key : String)
    (h : decrementRowsAffected st.events eventID ≠ 0)
    (hc : insertConflict st.tickets eventID email key = true) :
    registerForEvent st now eventID email key = (.alreadyRegistered, st) := by
  simp [registerForEvent, h, hc]

theorem registerForEvent_success (st : DBState) (now eventID : Nat) (email key : String)
    (h : decrementRowsAffected st.events eventID ≠ 0)
    (hc : insertConflict st.tickets eventID email key = false) :
    registerForEvent st now eventID email key =
      (.ok st.nextTicketId,
       { st with
          events := decrementSpots st.events eventID,
          tickets := st.tickets ++
            [⟨st.nextTicketId, eventID, email, key, .reserved, now + holdDuration⟩],
          nextTicketId := st.nextTicketId + 1 }) := by
  simp [registerForEvent, h, hc]

theorem registerForEvent_ok_inv (st : DBState) (now eventID : Nat) (email key : String)
    (tid : Nat) (st1 : DBState)
    (h : registerForEvent st now eventID email key = (.ok tid, st1)) :
    tid = st.nextTicketId ∧
    decrementRowsAffected st.events eventID ≠ 0 ∧
    insertConflict st.tickets eventID email key = false ∧
    st1 = { st with
            events := decrementSpots st.events eventID,
            tickets := st.tickets ++
              [⟨st.nextTicketId, eventID, email, key, .reserved, now + holdDuration⟩],
            nextTicketId := st.nextTicketId + 1 } := by
  by_cases h1 : decrementRowsAffected st.events eventID = 0
  · rw [registerForEvent_soldOut st now eventID email key h1] at h
    simp at h
  · by_cases h2 : insertConflict st.tickets eventID email key = true
    · rw [registerForEvent_conflict st now eventID email key h1 h2] at h
      simp at h
    · have h2f : insertConflict st.tickets eventID email key = false := by
        simpa using h2
      rw [registerForEvent_success st now eventID email key h1 h2f] at h
      simp only [Prod.mk.injEq, RegisterResult.ok.injEq] at h
      exact ⟨h.1.symm, h1, h2f, h.2.symm⟩

theorem decrementRowsAffected_ne_zero (events : List EventRow) (eventID : Nat)
    (e : EventRow) (he : e ∈ events) (hid : e.id = eventID)
    (hpos : 0 < e.availableSpots) :
    decrementRowsAffected events eventID ≠ 0 := by
  unfold decrementRowsAffected
  intro h0
  rw [List.countP_eq_zero] at h0
  exact h0 e he (by simp [decrementHits, hid, hpos])

theorem confirmReservation_snd (st : DBState) (now ticketID : Nat) (email : String) :
    (confirmReservation st now ticketID email).2 =
      { st with tickets := confirmUpdated st now ticketID email } := by
  unfold confirmReservation
  split <;> rfl

theorem confirmReservation_ok_iff (st : DBState) (now ticketID : Nat) (email : String) :
    (confirmReservation st now ticketID email).1 = .ok ↔
      ∃ t ∈ st.tickets, t.id = ticketID ∧ t.userEmail = email ∧
        t.status = TicketStatus.reserved ∧ now < t.expiresAt := by
  unfold confirmReservation
  by_cases h : st.tickets.countP (confirmHits now ticketID email) = 0
  · rw [if_pos h]
    simp only [List.countP_eq_zero] at h
    constructor
    · intro hcontra
      exact absurd hcontra (by simp)
    · rintro ⟨t, ht, h1, h2, h3, h4⟩
      exact absurd (by simp [confirmHits, h1, h2, h3, h4]) (h t ht)
  · rw [if_neg h]
    have : ∃ t ∈ st.tickets, confirmHits now ticketID email t = true :=
      List.countP_pos_iff.mp (Nat.pos_of_ne_zero h)
    obtain ⟨t, ht, hhit⟩ := this
    have hp := of_decide_eq_true hhit
    simp only [true_iff]
    exact ⟨t, ht, hp.1, hp.2.1, hp.2.2.1, hp.2.2.2⟩

theorem wf_empty : WF DBState.empty := by
  constructor <;> simp [DBState.empty]

theorem wf_createEvent (st : DBState) (name : String) (cap : Int) (h : WF st) :
    WF (createEvent st name cap).2 := by
  unfold createEvent
  by_cases hc : eventsCheck ⟨st.nextEventId, name, cap, cap⟩
  · rw [if_pos hc]
    refine ⟨?_, h.ticketsNodup, ?_, h.ticketsLt, ?_, ?_, ?_⟩
    · simp only [List.map_append, List.map_cons, List.map_nil, List.nodup_append]
      refine ⟨h.eventsNodup, by simp, ?_⟩
      intro x hx hx1
      simp only [List.mem_singleton] at hx1
      obtain ⟨e, he, hei⟩ := List.mem_map.mp hx
      have := h.eventsLt e he
      omega
    · intro e he
      dsimp only
      rcases List.mem_append.mp he with h1 | h1
      · have := h.eventsLt e h1; omega
      · simp only [List.mem_singleton] at h1
        subst h1; simp
    · intro t ht
      dsimp only
      have := h.ticketsEventLt t ht; omega
    · intro e he
      rcases List.mem_append.mp he with h1 | h1
      · exact h.capacity e h1
      · simp only [List.mem_singleton] at h1
        subst h1
        have hz : activeCount st.tickets st.nextEventId = 0 := by
          rw [activeCount, List.countP_eq_zero]
          intro t ht
          have := h.ticketsEventLt t ht
          simp only [Bool.and_eq_true, decide_eq_true_eq]
          rintro ⟨h2, -⟩
          omega
        simp [hz]
    · intro e he
      rcases List.mem_append.mp he with h1 | h1
      · exact h.availNonneg e h1
      · simp only [List.mem_singleton] at h1
        subst h1
        simpa [eventsCheck] using hc
  · rw [if_neg hc]
    exact h

theorem wf_handleCreateEvent (st : DBState) (name : String) (cap : Int) (h : WF st) :
    WF (handleCreateEvent st name cap).2 := by
  unfold handleCreateEvent
  split
  · exact h
  · split
    case _ _ ev st1 heq =>
      have : st1 = (createEvent st name cap).2 := by rw [heq]
      rw [this]
      exact wf_createEvent st name cap h
    case _ _ st1 heq =>
      have : st1 = (createEvent st name cap).2 := by rw [heq]
      rw [this]
      exact wf_createEvent st name cap h

theorem activeCount_append_new (tickets : List TicketRow) (tid eventID : Nat)
    (email key : String) (exp : Nat) (x : Nat) :
    activeCount (tickets ++ [⟨tid, eventID, email, key, .reserved, exp⟩]) x =
      activeCount tickets x + (if eventID = x then 1 else 0) := by
  unfold activeCount
  rw [List.countP_append]
  congr 1
  by_cases hx : eventID = x <;> simp [isActive, hx]

theorem wf_registerForEvent (st : DBState) (now eventID : Nat) (email key : String)
    (h : WF st) : WF (registerForEvent st now eventID email key).2 := by
  by_cases h1 : decrementRowsAffected st.events eventID = 0
  · rw [registerForEvent_soldOut st now eventID email key h1]
    exact h
  · by_cases h2 : insertConflict st.tickets eventID email key = true
    · rw [registerForEvent_conflict st now eventID email key h1 h2]
      exact h
    · have h2f : insertConflict st.tickets eventID email key = false := by simpa using h2
      rw [registerForEvent_success st now eventID email key h1 h2f]
      have hpos : 0 < st.events.countP (decrementHits eventID) := by
        unfold decrementRowsAffected at h1
        exact Nat.pos_of_ne_zero h1
      obtain ⟨hrow, hmem, hhit⟩ := List.countP_pos_iff.mp hpos
      have hrowp := of_decide_eq_true hhit
      refine ⟨?_, ?_, ?_, ?_, ?_, ?_, ?_⟩
      · dsimp only
        rw [decrementSpots_map_id]
        exact h.eventsNodup
      · dsimp only
        simp only [List.map_append, List.map_cons, List.map_nil, List.nodup_append]
        refine ⟨h.ticketsNodup, by simp, ?_⟩
        intro x hx hx1
        simp only [List.mem_singleton] at hx1
        obtain ⟨t, ht, hti⟩ := List.mem_map.mp hx
        have := h.ticketsLt t ht
        omega
      · intro e1 he1
        dsimp only at he1 ⊢
        obtain ⟨e, he, rfl⟩ := List.mem_map.mp he1
        have := h.eventsLt e he
        by_cases hd : decrementHits eventID e <;> simp [hd] <;> omega
      · intro t ht
        dsimp only at ht ⊢
        rcases List.mem_append.mp ht with h3 | h3
        · have := h.ticketsLt t h3; omega
        · simp only [List.mem_singleton] at h3
          subst h3; simp
      · intro t ht
        dsimp only at ht ⊢
        rcases List.mem_append.mp ht with h3 | h3
        · exact h.ticketsEventLt t h3
        · simp only [List.mem_singleton] at h3
          subst h3
          simpa using hrowp.1 ▸ h.eventsLt hrow hmem
      · intro e1 he1
        dsimp only at he1 ⊢
        obtain ⟨e, he, rfl⟩ := List.mem_map.mp he1
        rw [activeCount_append_new]
        have hcap := h.capacity e he
        by_cases hd : decrementHits eventID e
        · have hdp := of_decide_eq_true hd
          rw [if_pos hd]
          have hx : eventID = e.id := hdp.1.symm
          simp only [hx, if_pos rfl]
          push_cast
          omega
        · have hne : e.id ≠ eventID := by
            intro hc
            have : e = hrow :=
              List.inj_on_of_nodup_map h.eventsNodup he hmem (by rw [hc, hrowp.1])
            rw [this] at hd
            exact hd hhit
          rw [if_neg hd]
          have hx : ¬ eventID = e.id := fun hc => hne hc.symm
          simp only [hx, if_neg]
          simpa using hcap
      · intro e1 he1
        dsimp only at he1 ⊢
        obtain ⟨e, he, rfl⟩ := List.mem_map.mp he1
        have := h.availNonneg e he
        by_cases hd : decrementHits eventID e
        · have hdp := of_decide_eq_true hd
          simp only [if_pos hd]
          omega
        · simp only [if_neg hd]
          exact this

theorem confirmUpdated_map_id (st : DBState) (now ticketID : Nat) (email : String) :
    (confirmUpdated st now ticketID email).map TicketRow.id =
      st.tickets.map TicketRow.id := by
  unfold confirmUpdated
  rw [List.map_map]
  refine List.map_congr_left ?_
  intro t _
  by_cases hc : confirmHits now ticketID email t <;> simp [hc]

theorem activeCount_confirmUpdated (st : DBState) (now ticketID : Nat)
    (email : String) (x : Nat) :
    activeCount (confirmUpdated st now ticketID email) x =
      activeCount st.tickets x := by
  unfold activeCount confirmUpdated
  rw [List.countP_map]
  refine List.countP_congr ?_
  intro t _
  by_cases hc : confirmHits now ticketID email t
  · have hp := of_decide_eq_true hc
    simp [Function.comp_apply, hc, isActive, hp.2.2.1]
  · simp [Function.comp_apply, hc]

theorem wf_confirmReservation (st : DBState) (now ticketID : Nat) (email : String)
    (h : WF st) : WF (confirmReservation st now ticketID email).2 := by
  rw [confirmReservation_snd]
  refine ⟨h.eventsNodup, ?_, h.eventsLt, ?_, ?_, ?_, h.availNonneg⟩
  · dsimp only
    rw [confirmUpdated_map_id]
    exact h.ticketsNodup
  · intro t ht
    dsimp only at ht ⊢
    unfold confirmUpdated at ht
    obtain ⟨u, hu, rfl⟩ := List.mem_map.mp ht
    have := h.ticketsLt u hu
    by_cases hc : confirmHits now ticketID email u <;> simp [hc] <;> omega
  · intro t ht
    dsimp only at ht ⊢
    unfold confirmUpdated at ht
    obtain ⟨u, hu, rfl⟩ := List.mem_map.mp ht
    have := h.ticketsEventLt u hu
    by_cases hc : confirmHits now ticketID email u <;> simp [hc] <;> omega
  · intro e he
    dsimp only at he ⊢
    rw [activeCount_confirmUpdated]
    exact h.capacity e he

theorem mem_candidate_ids (st : DBState) (now : Nat)
    (hnd : (st.tickets.map TicketRow.id).Nodup)
    (t : TicketRow) (ht : t ∈ st.tickets) :
    t.id ∈ (expiredCandidates st now).map Prod.fst ↔ reclaimHits now t = true := by
  unfold expiredCandidates
  rw [List.map_map]
  constructor
  · intro hm
    obtain ⟨u, hu, hue⟩ := List.mem_map.mp hm
    obtain ⟨humem, huhit⟩ := List.mem_filter.mp hu
    have hid : u.id = t.id := hue
    have : u = t := List.inj_on_of_nodup_map hnd humem ht hid
    rwa [this] at huhit
  · intro hh
    exact List.mem_map.mpr ⟨t, List.mem_filter.mpr ⟨ht, hh⟩, rfl⟩

theorem activeCount_after_reclaim (st : DBState) (now : Nat)
    (hnd : (st.tickets.map TicketRow.id).Nodup) (x : Nat) :
    activeCount st.tickets x =
      activeCount (reclaimExpiredSeats st now).1.tickets x +
        (expiredCandidates st now).countP (fun c => decide (c.2 = x)) := by
  unfold reclaimExpiredSeats
  rw [reclaimLoop_tickets]
  unfold activeCount
  rw [List.countP_map]
  have hA : st.tickets.countP
      ((fun t => decide (t.eventId = x) && isActive t.status) ∘
        cancelIfIn ((expiredCandidates st now).map Prod.fst)) =
      st.tickets.countP
        (fun t => (decide (t.eventId = x) && isActive t.status) && !(reclaimHits now t)) := by
    refine List.countP_congr ?_
    intro t ht
    simp only [Function.comp_apply]
    by_cases hm : t.id ∈ (expiredCandidates st now).map Prod.fst
    · have hh := (mem_candidate_ids st now hnd t ht).mp hm
      unfold cancelIfIn
      rw [if_pos hm, hh]
      simp [isActive]
    · have hh : reclaimHits now t = false := by
        cases h0 : reclaimHits now t
        · rfl
        · exact absurd ((mem_candidate_ids st now hnd t ht).mpr h0) hm
      unfold cancelIfIn
      rw [if_neg hm, hh]
      simp
  have hC : (expiredCandidates st now).countP (fun c => decide (c.2 = x)) =
      st.tickets.countP
        (fun t => (decide (t.eventId = x) && isActive t.status) && reclaimHits now t) := by
    unfold expiredCandidates
    rw [List.countP_map, List.countP_filter]
    refine List.countP_congr ?_
    intro t _
    simp only [Function.comp_apply]
    by_cases hh : reclaimHits now t = true
    · have hp := of_decide_eq_true hh
      simp [hh, hp.1, isActive]
    · have hh0 : reclaimHits now t = false := by
        cases h0 : reclaimHits now t
        · rfl
        · exact absurd h0 hh
      simp [hh0]
  rw [hA, hC]
  have := countP_and_not st.tickets
    (fun t => decide (t.eventId = x) && isActive t.status) (reclaimHits now)
  omega

theorem wf_reclaimExpiredSeats (st : DBState) (now : Nat) (h : WF st) :
    WF (reclaimExpiredSeats st now).1 := by
  have htick : (reclaimExpiredSeats st now).1.tickets =
      st.tickets.map (cancelIfIn ((expiredCandidates st now).map Prod.fst)) :=
    reclaimLoop_tickets (expiredCandidates st now) st
  have hev : (reclaimExpiredSeats st now).1.events =
      st.events.map (bumpBy (expiredCandidates st now)) :=
    reclaimLoop_events (expiredCandidates st now) st
  have hnei : (reclaimExpiredSeats st now).1.nextEventId = st.nextEventId :=
    reclaimLoop_nextEventId (expiredCandidates st now) st
  have hnti : (reclaimExpiredSeats st now).1.nextTicketId = st.nextTicketId :=
    reclaimLoop_nextTicketId (expiredCandidates st now) st
  refine ⟨?_, ?_, ?_, ?_, ?_, ?_, ?_⟩
  · rw [hev, List.map_map]
    have : (EventRow.id ∘ bumpBy (expiredCandidates st now)) = EventRow.id := by
      funext e
      rfl
    rw [this]
    exact h.eventsNodup
  · rw [htick, List.map_map]
    have : (TicketRow.id ∘ cancelIfIn ((expiredCandidates st now).map Prod.fst)) =
        TicketRow.id := by
      funext t
      unfold cancelIfIn
      by_cases hm : t.id ∈ (expiredCandidates st now).map Prod.fst <;> simp [hm]
    rw [this]
    exact h.ticketsNodup
  · intro e he
    rw [hev] at he
    rw [hnei]
    obtain ⟨e0, he0, rfl⟩ := List.mem_map.mp he
    exact h.eventsLt e0 he0
  · intro t ht
    rw [htick] at ht
    rw [hnti]
    obtain ⟨t0, ht0, rfl⟩ := List.mem_map.mp ht
    unfold cancelIfIn
    have := h.ticketsLt t0 ht0
    by_cases hm : t0.id ∈ (expiredCandidates st now).map Prod.fst <;> simp [hm] <;> omega
  · intro t ht
    rw [htick] at ht
    rw [hnei]
    obtain ⟨t0, ht0, rfl⟩ := List.mem_map.mp ht
    unfold cancelIfIn
    have := h.ticketsEventLt t0 ht0
    by_cases hm : t0.id ∈ (expiredCandidates st now).map Prod.fst <;> simp [hm] <;> omega
  · intro e he
    rw [hev] at he
    rw [htick]
    obtain ⟨e0, he0, rfl⟩ := List.mem_map.mp he
    have hcap := h.capacity e0 he0
    have hcnt := activeCount_after_reclaim st now h.ticketsNodup e0.id
    rw [htick] at hcnt
    unfold bumpBy
    dsimp only
    omega
  · intro e he
    rw [hev] at he
    obtain ⟨e0, he0, rfl⟩ := List.mem_map.mp he
    have := h.availNonneg e0 he0
    unfold bumpBy
    dsimp only
    omega

theorem registerAll_spec (reqs : List (String × String)) :
    ∀ (st : DBState) (now eventID : Nat) (ev : EventRow) (a : Nat),
      ev ∈ st.events → ev.id = eventID →
      (st.events.map EventRow.id).Nodup →
      ev.availableSpots = (a : Int) →
      (∀ r ∈ reqs, ∀ t ∈ st.tickets,
        t.idempotencyKey ≠ r.2 ∧ ¬(t.eventId = eventID ∧ t.userEmail = r.1)) →
      (reqs.map Prod.fst).Nodup → (reqs.map Prod.snd).Nodup →
      (registerAll st now eventID reqs).2 =
        ⟨min reqs.length a, reqs.length - min reqs.length a, 0⟩ ∧
      (∃ ev1 ∈ (registerAll st now eventID reqs).1.events,
        ev1.id = eventID ∧ ev1.totalSpots = ev.totalSpots ∧
        ev1.availableSpots = ((a - min reqs.length a : Nat) : Int)) ∧
      activeCount (registerAll st now eventID reqs).1.tickets eventID =
        activeCount st.tickets eventID + min reqs.length a := by
  induction reqs with
  | nil =>
    intro st now eventID ev a hev hid hnd ha hfresh h1 h2
    refine ⟨by simp [registerAll], ⟨ev, ?_, hid, rfl, ?_⟩, by simp [registerAll]⟩
    · simpa [registerAll] using hev
    · simpa [registerAll] using ha
  | cons r rest ih =>
    intro st now eventID ev a hev hid hnd ha hfresh h1 h2
    have hconf : insertConflict st.tickets eventID r.1 r.2 = false := by
      rw [insertConflict, List.any_eq_false]
      intro t ht
      have hf := hfresh r (List.mem_cons_self r rest) t ht
      simp only [decide_eq_true_eq]
      rintro (hk | hpair)
      · exact hf.1 hk
      · exact hf.2 hpair
    by_cases hpos : 0 < a
    · have hD : decrementRowsAffected st.events eventID ≠ 0 := by
        refine decrementRowsAffected_ne_zero st.events eventID ev hev hid ?_
        rw [ha]
        exact_mod_cast hpos
      have hsucc := registerForEvent_success st now eventID r.1 r.2 hD hconf
      obtain ⟨st1, hst1⟩ : ∃ st1, ({ st with
          events := decrementSpots st.events eventID,
          tickets := st.tickets ++
            [⟨st.nextTicketId, eventID, r.1, r.2, .reserved, now + holdDuration⟩],
          nextTicketId := st.nextTicketId + 1 } : DBState) = st1 := ⟨_, rfl⟩
      rw [hst1] at hsucc
      have hAll : registerAll st now eventID (r :: rest) =
          ((registerAll st1 now eventID rest).1,
           ⟨(registerAll st1 now eventID rest).2.succeeded + 1,
            (registerAll st1 now eventID rest).2.soldOut,
            (registerAll st1 now eventID rest).2.already⟩) := by
        simp only [registerAll]
        rw [hsucc]
      have hits : decrementHits eventID ev = true := by
        rw [decrementHits]
        refine decide_eq_true ⟨hid, ?_⟩
        rw [ha]
        exact_mod_cast hpos
      have hst1ev : st1.events = decrementSpots st.events eventID := by rw [← hst1]
      have hst1tick : st1.tickets = st.tickets ++
          [⟨st.nextTicketId, eventID, r.1, r.2, .reserved, now + holdDuration⟩] := by
        rw [← hst1]
      have hev1 : ({ ev with availableSpots := ev.availableSpots - 1 } : EventRow) ∈
          st1.events := by
        rw [hst1ev]
        unfold decrementSpots
        refine List.mem_map.mpr ⟨ev, hev, ?_⟩
        rw [if_pos hits]
      have hact1 : activeCount st1.tickets eventID = activeCount st.tickets eventID + 1 := by
        rw [hst1tick, activeCount_append_new]
        simp
      have ihr := ih st1 now eventID { ev with availableSpots := ev.availableSpots - 1 }
        (a - 1) hev1 hid
        (by rw [hst1ev, decrementSpots_map_id]; exact hnd)
        (by dsimp only; rw [ha]; omega)
        (by
          intro r2 hr2 t ht
          rw [hst1tick] at ht
          rcases List.mem_append.mp ht with h3 | h3
          · exact hfresh r2 (List.mem_cons_of_mem r hr2) t h3
          · simp only [List.mem_singleton] at h3
            subst h3
            constructor
            · dsimp only
              intro hk
              have : r.2 ∈ rest.map Prod.snd := List.mem_map.mpr ⟨r2, hr2, hk.symm⟩
              simp only [List.map_cons, List.nodup_cons] at h2
              exact h2.1 this
            · dsimp only
              rintro ⟨-, hm⟩
              have : r.1 ∈ rest.map Prod.fst := List.mem_map.mpr ⟨r2, hr2, hm.symm⟩
              simp only [List.map_cons, List.nodup_cons] at h1
              exact h1.1 this)
        (by simp only [List.map_cons, List.nodup_cons] at h1; exact h1.2)
        (by simp only [List.map_cons, List.nodup_cons] at h2; exact h2.2)
      obtain ⟨ihstats, ⟨ev2, hev2, hev2id, hev2tot, hev2avail⟩, ihact⟩ := ihr
      refine ⟨?_, ⟨ev2, ?_, hev2id, by simpa using hev2tot, ?_⟩, ?_⟩
      · rw [hAll]
        simp only [ihstats, List.length_cons, RegStats.mk.injEq]
        refine ⟨by omega, by omega, trivial⟩
      · rw [hAll]
        exact hev2
      · rw [hev2avail]
        congr 1
        simp only [List.length_cons]
        omega
      · rw [hAll]
        dsimp only
        rw [ihact, hact1]
        simp only [List.length_cons]
        omega
    · have ha0 : a = 0 := by omega
      have hD0 : decrementRowsAffected st.events eventID = 0 := by
        rw [decrementRowsAffected, List.countP_eq_zero]
        intro e he
        rw [decrementHits]
        simp only [decide_eq_true_eq, not_and]
        intro hid2
        have : e = ev := List.inj_on_of_nodup_map hnd he hev (by rw [hid2, hid])
        rw [this, ha, ha0]
        simp
      have hsold := registerForEvent_soldOut st now eventID r.1 r.2 hD0
      have hAll : registerAll st now eventID (r :: rest) =
          ((registerAll st now eventID rest).1,
           ⟨(registerAll st now eventID rest).2.succeeded,
            (registerAll st now eventID rest).2.soldOut + 1,
            (registerAll st now eventID rest).2.already⟩) := by
        simp only [registerAll]
        rw [hsold]
      have ihr := ih st now eventID ev a hev hid hnd ha
        (fun r2 hr2 t ht => hfresh r2 (List.mem_cons_of_mem r hr2) t ht)
        (by simp only [List.map_cons, List.nodup_cons] at h1; exact h1.2)
        (by simp only [List.map_cons, List.nodup_cons] at h2; exact h2.2)
      obtain ⟨ihstats, ⟨ev2, hev2, hev2id, hev2tot, hev2avail⟩, ihact⟩ := ihr
      refine ⟨?_, ⟨ev2, ?_, hev2id, hev2tot, ?_⟩, ?_⟩
      · rw [hAll]
        simp only [ihstats, List.length_cons, RegStats.mk.injEq]
        refine ⟨by omega, by omega, trivial⟩
      · rw [hAll]
        exact hev2
      · rw [hev2avail, ha0]
        simp
      · rw [hAll]
        dsimp only
        rw [ihact, ha0]
        simp

theorem reachable_wf (st : DBState) (h : Reachable st) : WF st := by
  induction h with
  | init => exact wf_empty
  | create st name cap _ ih => exact wf_handleCreateEvent st name cap ih
  | register st now eventID email key _ ih => exact wf_registerForEvent st now eventID email key ih
  | confirm st now ticketID email _ ih => exact wf_confirmReservation st now ticketID email ih
  | reclaim st now _ ih => exact wf_reclaimExpiredSeats st now ih

theorem reclaimLoop_eq_cond (cands : List (Nat × Nat)) :
    ∀ st : DBState,
      (st.tickets.map TicketRow.id).Nodup →
      (∀ c ∈ cands, ∃ t ∈ st.tickets, t.id = c.1 ∧ t.status = TicketStatus.reserved) →
      (cands.map Prod.fst).Nodup →
      reclaimLoop st cands = reclaimLoopCond st cands := by
  induction cands with
  | nil => intro st _ _ _; rfl
  | cons c rest ih =>
    intro st hnd hres hcnd
    obtain ⟨t, ht, htid, hts⟩ := hres c (List.mem_cons_self c rest)
    have hcount : ¬ st.tickets.countP (transitionHoldHits c.1) = 0 := by
      intro h0
      rw [List.countP_eq_zero] at h0
      exact h0 t ht (decide_eq_true ⟨htid, hts⟩)
    have hmap : (st.tickets.map fun u =>
          if u.id = c.1 then { u with status := TicketStatus.cancelled } else u) =
        st.tickets.map fun u =>
          if transitionHoldHits c.1 u then { u with status := TicketStatus.cancelled } else u := by
      refine List.map_congr_left ?_
      intro u hu
      by_cases hid : u.id = c.1
      · have hut : u = t :=
          List.inj_on_of_nodup_map hnd hu ht (by rw [hid, htid])
        rw [if_pos hid, if_pos (by exact decide_eq_true ⟨hid, by rw [hut]; exact hts⟩)]
      · rw [if_neg hid, if_neg ?_]
        intro hc
        exact hid (of_decide_eq_true hc).1
    have hone : reclaimOne st c.1 c.2 = (reclaimOneCond st c.1 c.2).1 := by
      unfold reclaimOne reclaimOneCond
      rw [if_neg hcount]
      dsimp only
      rw [hmap]
    have hflag : (reclaimOneCond st c.1 c.2).2 = true := by
      unfold reclaimOneCond
      rw [if_neg hcount]
    have hnd1 : ((reclaimOne st c.1 c.2).tickets.map TicketRow.id).Nodup := by
      unfold reclaimOne
      dsimp only
      rw [List.map_map]
      have : (TicketRow.id ∘ fun u : TicketRow =>
          if u.id = c.1 then { u with status := TicketStatus.cancelled } else u) =
          TicketRow.id := by
        funext u
        by_cases hid : u.id = c.1 <;> simp [hid]
      rw [this]
      exact hnd
    have hres1 : ∀ c2 ∈ rest, ∃ t2 ∈ (reclaimOne st c.1 c.2).tickets,
        t2.id = c2.1 ∧ t2.status = TicketStatus.reserved := by
      intro c2 hc2
      obtain ⟨t2, ht2, ht2id, ht2s⟩ := hres c2 (List.mem_cons_of_mem c hc2)
      have hne : t2.id ≠ c.1 := by
        intro hcontra
        simp only [List.map_cons, List.nodup_cons] at hcnd
        exact hcnd.1 (by
          rw [← hcontra, ht2id]
          exact List.mem_map.mpr ⟨c2, hc2, rfl⟩)
      refine ⟨t2, ?_, ht2id, ht2s⟩
      unfold reclaimOne
      dsimp only
      refine List.mem_map.mpr ⟨t2, ht2, ?_⟩
      rw [if_neg hne]
    have hcnd1 : (rest.map Prod.fst).Nodup := by
      simp only [List.map_cons, List.nodup_cons] at hcnd
      exact hcnd.2
    show ((reclaimLoop (reclaimOne st c.1 c.2) rest).1,
        (reclaimLoop (reclaimOne st c.1 c.2) rest).2 + 1) = _
    have hRHS : reclaimLoopCond st (c :: rest) =
        ((reclaimLoopCond (reclaimOneCond st c.1 c.2).1 rest).1,
         (reclaimLoopCond (reclaimOneCond st c.1 c.2).1 rest).2 +
           if (reclaimOneCond st c.1 c.2).2 then 1 else 0) := rfl
    rw [hRHS, hflag, ← hone, ih (reclaimOne st c.1 c.2) hnd1 hres1 hcnd1]
    simp

theorem reclaim_ids_sublist_nodup (st : DBState) (now : Nat)
    (hnd : (st.tickets.map TicketRow.id).Nodup) :
    ((expiredCandidates st now).map Prod.fst).Nodup := by
  unfold expiredCandidates
  rw [List.map_map]
  have : (Prod.fst ∘ fun t : TicketRow => (t.id, t.eventId)) = TicketRow.id := rfl
  rw [this]
  exact ((List.filter_sublist st.tickets).map TicketRow.id).nodup hnd

/-- After a reclaim cycle at time `now`, no reserved-and-expired ticket
remains, so the candidate query at the same time returns nothing. -/
theorem expiredCandidates_after_reclaim (st : DBState) (now : Nat) :
    expiredCandidates (reclaimExpiredSeats st now).1 now = [] := by
  have htick : (reclaimExpiredSeats st now).1.tickets =
      st.tickets.map (cancelIfIn ((expiredCandidates st now).map Prod.fst)) :=
    reclaimLoop_tickets (expiredCandidates st now) st
  unfold expiredCandidates
  rw [htick]
  rw [List.map_eq_nil_iff, List.filter_eq_nil_iff]
  intro t2 ht2
  obtain ⟨u, hu, rfl⟩ := List.mem_map.mp ht2
  unfold cancelIfIn
  by_cases hm : u.id ∈ (expiredCandidates st now).map Prod.fst
  · rw [if_pos hm]
    simp [reclaimHits]
  · rw [if_neg hm]
    intro hc
    refine hm ?_
    unfold expiredCandidates
    rw [List.map_map]
    exact List.mem_map.mpr ⟨u, List.mem_filter.mpr ⟨hu, hc⟩, rfl⟩

theorem reclaim_idempotent (st : DBState) (now : Nat) :
    reclaimExpiredSeats (reclaimExpiredSeats st now).1 now =
      ((reclaimExpiredSeats st now).1, 0) := by
  show reclaimLoop (reclaimExpiredSeats st now).1
      (expiredCandidates (reclaimExpiredSeats st now).1 now) = _
  rw [expiredCandidates_after_reclaim st now]
  rfl

/-- C1: in every reachable state (any sequence of CreateEvent, Register,
Confirm and reclaim-cycle operations from the empty store), each event's
available capacity equals its total capacity minus the number of its
holds in status pending (reserved) or finalized (confirmed). -/
theorem claim1_capacity_invariant (st : DBState) (h : Reachable st)
    (ev : EventRow) (hev : ev ∈ st.events) :
    ev.availableSpots = ev.totalSpots - (activeCount st.tickets ev.id : Int) :=
  (reachable_wf st h).capacity ev hev

theorem claim1_capacity_invariant_witness :
    ({ id := 1, name := "gala", totalSpots := 2, availableSpots := 1 } : EventRow).availableSpots =
      ({ id := 1, name := "gala", totalSpots := 2, availableSpots := 1 } : EventRow).totalSpots -
        (activeCount demoState.tickets
          ({ id := 1, name := "gala", totalSpots := 2, availableSpots := 1 } : EventRow).id : Int) :=
  claim1_capacity_invariant demoState
    (Reachable.register _ 0 1 "u@x" "k1" (Reachable.create _ "gala" 2 Reachable.init))
    ⟨1, "gala", 2, 1⟩ (by decide)

/-- C8 counterexample: the storage layer's only constraint on the events
table is the lower-bound CHECK; it accepts a row whose available capacity
exceeds its total capacity, and the reclaim loop's unconditional
increment pushes a full event's counter above total capacity while the
storage constraint still accepts the row. -/
theorem claim8_bounds_counterexample :
    eventsCheck ⟨1, "gala", 1, 2⟩ = true ∧
    (reclaimOne ⟨[⟨1, "gala", 1, 1⟩], [], 2, 1⟩ 7 1).events = [⟨1, "gala", 1, 2⟩] := by
  decide

/-- C8 (amended): in every reachable state every event satisfies
0 ≤ available_capacity ≤ total_capacity; the lower bound is backed by the
storage CHECK constraint and the guarded decrement, while the upper bound
follows from the capacity invariant rather than from any storage
constraint or guard on the increment. -/
theorem claim8_capacity_bounds (st : DBState) (h : Reachable st)
    (ev : EventRow) (hev : ev ∈ st.events) :
    0 ≤ ev.availableSpots ∧ ev.availableSpots ≤ ev.totalSpots := by
  have hwf := reachable_wf st h
  refine ⟨hwf.availNonneg ev hev, ?_⟩
  have hc := hwf.capacity ev hev
  have hnn : (0 : Int) ≤ (activeCount st.tickets ev.id : Int) := Int.natCast_nonneg _
  omega

theorem claim8_capacity_bounds_witness :
    0 ≤ ({ id := 1, name := "gala", totalSpots := 2, availableSpots := 1 } : EventRow).availableSpots ∧
    ({ id := 1, name := "gala", totalSpots := 2, availableSpots := 1 } : EventRow).availableSpots ≤
      ({ id := 1, name := "gala", totalSpots := 2, availableSpots := 1 } : EventRow).totalSpots :=
  claim8_capacity_bounds demoState
    (Reachable.register _ 0 1 "u@x" "k1" (Reachable.create _ "gala" 2 Reachable.init))
    ⟨1, "gala", 2, 1⟩ (by decide)

/-- C4: when the capacity decrement succeeded but the hold insert hits a
uniqueness violation (duplicate idempotency key, or duplicate holder for
the event in any status), the whole transaction aborts: the call returns
AlreadyRegistered and the state — capacity and holds — is exactly the
pre-call state, so the decrement is undone. -/
theorem claim4_duplicate_aborts (st : DBState) (now eventID : Nat) (email key : String)
    (hcap : ∃ e ∈ st.events, e.id = eventID ∧ 0 < e.availableSpots)
    (hdup : ∃ t ∈ st.tickets,
      t.idempotencyKey = key ∨ (t.eventId = eventID ∧ t.userEmail = email)) :
    registerForEvent st now eventID email key = (.alreadyRegistered, st) := by
  obtain ⟨e, he, heid, hepos⟩ := hcap
  obtain ⟨t, ht, hor⟩ := hdup
  have hD := decrementRowsAffected_ne_zero st.events eventID e he heid hepos
  have hC : insertConflict st.tickets eventID email key = true := by
    rw [insertConflict, List.any_eq_true]
    exact ⟨t, ht, decide_eq_true hor⟩
  exact registerForEvent_conflict st now eventID email key hD hC

theorem claim4_duplicate_aborts_witness :
    registerForEvent demoState 5 1 "u@x" "k9" = (.alreadyRegistered, demoState) :=
  claim4_duplicate_aborts demoState 5 1 "u@x" "k9"
    ⟨⟨1, "gala", 2, 1⟩, by decide, by decide, by decide⟩
    ⟨⟨1, 1, "u@x", "k1", .reserved, 300⟩, by decide, by decide⟩

/-- C6: Confirm succeeds exactly when a hold with the given id exists
whose holder matches, whose status is pending, and whose expiry is still
in the future; in every other case (not found, mismatched holder, already
finalized or released, expired) it fails, and Confirm never changes the
events table, hence never changes available capacity. -/
theorem claim6_confirm_guard (st : DBState) (now ticketID : Nat) (email : String) :
    ((confirmReservation st now ticketID email).1 = .ok ↔
      ∃ t ∈ st.tickets, t.id = ticketID ∧ t.userEmail = email ∧
        t.status = TicketStatus.reserved ∧ now < t.expiresAt) ∧
    (confirmReservation st now ticketID email).2.events = st.events := by
  refine ⟨confirmReservation_ok_iff st now ticketID email, ?_⟩
  rw [confirmReservation_snd]

/-- C9 counterexample: with a positive capacity but an empty name the
create operation rejects the request and creates no event, so a positive
capacity alone does not guarantee creation. -/
theorem claim9_create_counterexample :
    handleCreateEvent DBState.empty "" 5 = (.badRequest, DBState.empty) := by
  decide

/-- C9 (amended): CreateEvent fails and creates no event record whenever
totalCapacity ≤ 0; for totalCapacity > 0 and a nonempty name it creates
and returns the new event (an empty name is also rejected). -/
theorem claim9_create_validation (st : DBState) (name : String) (cap : Int) :
    (cap ≤ 0 → handleCreateEvent st name cap = (.badRequest, st)) ∧
    (name ≠ "" → 0 < cap →
      handleCreateEvent st name cap =
        (.created ⟨st.nextEventId, name, cap, cap⟩,
         { st with
            events := st.events ++ [⟨st.nextEventId, name, cap, cap⟩],
            nextEventId := st.nextEventId + 1 })) := by
  constructor
  · intro hc
    unfold handleCreateEvent
    rw [if_pos (Or.inr hc)]
  · intro hn hc
    have hck : eventsCheck ⟨st.nextEventId, name, cap, cap⟩ = true := by
      unfold eventsCheck
      exact decide_eq_true (by dsimp only; omega)
    have hce : createEvent st name cap =
        (some ⟨st.nextEventId, name, cap, cap⟩,
         { st with
            events := st.events ++ [⟨st.nextEventId, name, cap, cap⟩],
            nextEventId := st.nextEventId + 1 }) := by
      unfold createEvent
      rw [if_pos hck]
    unfold handleCreateEvent
    rw [if_neg (by
      rintro (h1 | h2)
      · exact hn h1
      · omega), hce]

theorem claim9_create_validation_witness :
    handleCreateEvent DBState.empty "gala" 0 = (.badRequest, DBState.empty) ∧
    handleCreateEvent DBState.empty "gala" 2 =
      (.created ⟨1, "gala", 2, 2⟩, ⟨[⟨1, "gala", 2, 2⟩], [], 2, 1⟩) :=
  ⟨(claim9_create_validation DBState.empty "gala" 0).1 (by decide),
   (claim9_create_validation DBState.empty "gala" 2).2 (by decide) (by decide)⟩

/-- C5 counterexample: against a capacity-1 event, repeating the same
registration (same idempotency key and holder) returns SoldOut rather
than AlreadyRegistered — the exhausted-capacity guard runs before the
uniqueness check, though the state is unchanged either way. -/
theorem claim5_repeat_counterexample :
    (registerForEvent
      (registerForEvent (handleCreateEvent DBState.empty "gala" 1).2 0 1 "u@x" "k1").2
      0 1 "u@x" "k1").1 = .soldOut := by
  decide

/-- C5 (amended): a successful Register adds exactly one hold and
consumes one capacity unit; every later repetition of the same request
(at any time, any number of times) leaves the state exactly as after the
first call and never returns a hold id — it returns AlreadyRegistered
whenever the capacity decrement can still fire, and SoldOut when the
event is sold out at that point. -/
theorem claim5_repeat_register (st : DBState) (now eventID : Nat) (email key : String)
    (tid : Nat) (st1 : DBState) (now2 n tid2 : Nat)
    (h : registerForEvent st now eventID email key = (.ok tid, st1)) :
    st1.tickets = st.tickets ++
      [⟨st.nextTicketId, eventID, email, key, .reserved, now + holdDuration⟩] ∧
    (registerForEvent st1 now2 eventID email key).2 = st1 ∧
    (registerForEvent st1 now2 eventID email key).1 ≠ .ok tid2 ∧
    repeatRegister now2 eventID email key n st1 = st1 ∧
    ((∃ e ∈ st1.events, e.id = eventID ∧ 0 < e.availableSpots) →
      (registerForEvent st1 now2 eventID email key).1 = .alreadyRegistered) := by
  obtain ⟨htid, hD, hC, hst1⟩ := registerForEvent_ok_inv st now eventID email key tid st1 h
  have hconf1 : insertConflict st1.tickets eventID email key = true := by
    rw [hst1]
    dsimp only
    rw [insertConflict, List.any_eq_true]
    exact ⟨⟨st.nextTicketId, eventID, email, key, .reserved, now + holdDuration⟩,
      List.mem_append.mpr (Or.inr (List.mem_singleton.mpr rfl)),
      decide_eq_true (Or.inl rfl)⟩
  have hstep : ∀ now3, (registerForEvent st1 now3 eventID email key).2 = st1 ∧
      (∀ t2, (registerForEvent st1 now3 eventID email key).1 ≠ .ok t2) := by
    intro now3
    by_cases hz : decrementRowsAffected st1.events eventID = 0
    · rw [registerForEvent_soldOut st1 now3 eventID email key hz]
      exact ⟨rfl, fun t2 => by simp⟩
    · rw [registerForEvent_conflict st1 now3 eventID email key hz hconf1]
      exact ⟨rfl, fun t2 => by simp⟩
  refine ⟨by rw [hst1], (hstep now2).1, (hstep now2).2 tid2, ?_, ?_⟩
  · induction n with
    | zero => rfl
    | succ m ihm =>
      show repeatRegister now2 eventID email key m
        (registerForEvent st1 now2 eventID email key).2 = st1
      rw [(hstep now2).1]
      exact ihm
  · rintro ⟨e, he, heid, hepos⟩
    have hz := decrementRowsAffected_ne_zero st1.events eventID e he heid hepos
    rw [registerForEvent_conflict st1 now2 eventID email key hz hconf1]

theorem claim5_repeat_register_witness :
    demoState.tickets = (handleCreateEvent DBState.empty "gala" 2).2.tickets ++
      [⟨(handleCreateEvent DBState.empty "gala" 2).2.nextTicketId, 1, "u@x", "k1",
        .reserved, 0 + holdDuration⟩] ∧
    (registerForEvent demoState 7 1 "u@x" "k1").2 = demoState ∧
    (registerForEvent demoState 7 1 "u@x" "k1").1 ≠ .ok 5 ∧
    repeatRegister 7 1 "u@x" "k1" 3 demoState = demoState ∧
    ((∃ e ∈ demoState.events, e.id = 1 ∧ 0 < e.availableSpots) →
      (registerForEvent demoState 7 1 "u@x" "k1").1 = .alreadyRegistered) :=
  claim5_repeat_register (handleCreateEvent DBState.empty "gala" 2).2 0 1 "u@x" "k1"
    1 demoState 7 3 5 (by decide)

/-- C10 counterexample: after the holder's hold was released by the
Reclaimer and the freed seat was taken by another holder, a later
Register by the original holder with a fresh idempotency key fails with
SoldOut, not AlreadyRegistered. -/
theorem claim10_rereg_counterexample :
    (∃ t ∈ reregState.tickets,
      t.eventId = 1 ∧ t.userEmail = "u@x" ∧ t.status = TicketStatus.cancelled) ∧
    registerForEvent reregState 400 1 "u@x" "k3" = (.soldOut, reregState) := by
  decide

/-- C10 (amended): the UNIQUE(event_id, user_email) constraint spans all
statuses, so a holder with any prior hold row for an event — including a
released one — never obtains a new hold for it, even with a fresh
idempotency key: the call leaves the state unchanged and never returns a
hold id; it returns AlreadyRegistered whenever the capacity decrement can
fire and SoldOut when the event is sold out. -/
theorem claim10_rereg_blocked (st : DBState) (now eventID : Nat) (email key : String)
    (tid2 : Nat) (t : TicketRow) (ht : t ∈ st.tickets) (hte : t.eventId = eventID)
    (htu : t.userEmail = email) :
    (registerForEvent st now eventID email key).2 = st ∧
    (registerForEvent st now eventID email key).1 ≠ .ok tid2 ∧
    ((∃ e ∈ st.events, e.id = eventID ∧ 0 < e.availableSpots) →
      (registerForEvent st now eventID email key).1 = .alreadyRegistered) := by
  have hC : insertConflict st.tickets eventID email key = true := by
    rw [insertConflict, List.any_eq_true]
    exact ⟨t, ht, decide_eq_true (Or.inr ⟨hte, htu⟩)⟩
  by_cases hz : decrementRowsAffected st.events eventID = 0
  · rw [registerForEvent_soldOut st now eventID email key hz]
    refine ⟨rfl, by simp, ?_⟩
    rintro ⟨e, he, heid, hepos⟩
    exact absurd hz (decrementRowsAffected_ne_zero st.events eventID e he heid hepos)
  · rw [registerForEvent_conflict st now eventID email key hz hC]
    exact ⟨rfl, by simp, fun _ => rfl⟩

theorem claim10_rereg_blocked_witness :
    (registerForEvent reregState 400 1 "u@x" "k3").2 = reregState ∧
    (registerForEvent reregState 400 1 "u@x" "k3").1 ≠ .ok 9 ∧
    ((∃ e ∈ reregState.events, e.id = 1 ∧ 0 < e.availableSpots) →
      (registerForEvent reregState 400 1 "u@x" "k3").1 = .alreadyRegistered) :=
  claim10_rereg_blocked reregState 400 1 "u@x" "k3" 9
    ⟨1, 1, "u@x", "k1", .cancelled, 300⟩ (by decide) rfl rfl

/-- C2: for an event created with capacity C, issuing N ≥ C registrations
with pairwise distinct idempotency keys and pairwise distinct holders
yields exactly C successes (each returning a hold id) and exactly N − C
SoldOut failures (and no AlreadyRegistered); afterwards the event's
available capacity is 0 and it has exactly C pending-or-finalized holds. -/
theorem claim2_no_overbooking (cap : Nat) (hcap : 0 < cap) (name : String)
    (hname : name ≠ "") (now : Nat) (reqs : List (String × String))
    (hN : cap ≤ reqs.length)
    (h1 : (reqs.map Prod.fst).Nodup) (h2 : (reqs.map Prod.snd).Nodup) :
    (registerAll (handleCreateEvent DBState.empty name (cap : Int)).2 now 1 reqs).2 =
      ⟨cap, reqs.length - cap, 0⟩ ∧
    (∃ ev1 ∈ (registerAll (handleCreateEvent DBState.empty name (cap : Int)).2
        now 1 reqs).1.events, ev1.id = 1 ∧ ev1.availableSpots = 0) ∧
    activeCount (registerAll (handleCreateEvent DBState.empty name (cap : Int)).2
        now 1 reqs).1.tickets 1 = cap := by
  have hck : eventsCheck ⟨DBState.empty.nextEventId, name, (cap : Int), (cap : Int)⟩ = true := by
    unfold eventsCheck
    exact decide_eq_true (by dsimp only; positivity)
  have hce : createEvent DBState.empty name (cap : Int) =
      (some ⟨1, name, (cap : Int), (cap : Int)⟩,
       ⟨[⟨1, name, (cap : Int), (cap : Int)⟩], [], 2, 1⟩) := by
    unfold createEvent
    rw [if_pos hck]
    rfl
  have hst1 : (handleCreateEvent DBState.empty name (cap : Int)).2 =
      ⟨[⟨1, name, (cap : Int), (cap : Int)⟩], [], 2, 1⟩ := by
    unfold handleCreateEvent
    rw [if_neg (by
      rintro (hh | hh)
      · exact hname hh
      · have : (0 : Int) < (cap : Int) := by exact_mod_cast hcap
        omega), hce]
  obtain ⟨hstats, ⟨ev1, hm, hid, htot, havail⟩, hact⟩ := registerAll_spec reqs
    ⟨[⟨1, name, (cap : Int), (cap : Int)⟩], [], 2, 1⟩ now 1
    ⟨1, name, (cap : Int), (cap : Int)⟩ cap
    (List.mem_singleton.mpr rfl) rfl (by simp) rfl
    (by intro r hr t ht; simp at ht)
    h1 h2
  have hmin : min reqs.length cap = cap := min_eq_right hN
  rw [hst1]
  refine ⟨by rw [hstats, hmin], ⟨ev1, hm, hid, ?_⟩, by rw [hact, hmin]; simp [activeCount]⟩
  rw [havail, hmin]
  simp

theorem claim2_no_overbooking_witness :
    (registerAll (handleCreateEvent DBState.empty "gala" ((1 : Nat) : Int)).2 0 1
        [("a@x", "k1"), ("b@x", "k2")]).2 = ⟨1, 1, 0⟩ ∧
    (∃ ev1 ∈ (registerAll (handleCreateEvent DBState.empty "gala" ((1 : Nat) : Int)).2 0 1
        [("a@x", "k1"), ("b@x", "k2")]).1.events, ev1.id = 1 ∧ ev1.availableSpots = 0) ∧
    activeCount (registerAll (handleCreateEvent DBState.empty "gala" ((1 : Nat) : Int)).2 0 1
        [("a@x", "k1"), ("b@x", "k2")]).1.tickets 1 = 1 :=
  claim2_no_overbooking 1 (by decide) "gala" (by decide) 0
    [("a@x", "k1"), ("b@x", "k2")] (by decide) (by decide) (by decide)

/-- C3 counterexample: the source's per-candidate unit is an unconditional
update keyed only on the ticket id — handed a candidate whose hold is
already finalized, it still transitions the hold to released and
increments the event's capacity, instead of skipping the candidate
without a capacity change as the claimed conditional transition would. -/
theorem claim3_unconditional_counterexample :
    (reclaimOne ⟨[⟨1, "gala", 1, 0⟩], [⟨1, 1, "u@x", "k1", .confirmed, 10⟩], 2, 2⟩
        1 1).tickets = [⟨1, 1, "u@x", "k1", .cancelled, 10⟩] ∧
    (reclaimOne ⟨[⟨1, "gala", 1, 0⟩], [⟨1, 1, "u@x", "k1", .confirmed, 10⟩], 2, 2⟩
        1 1).events = [⟨1, "gala", 1, 1⟩] := by
  decide

/-- C3 (amended): the reclaim cycle runs as one transaction that selects
the reserved-and-expired tickets and then, for each candidate,
unconditionally marks the row cancelled by id and increments the event
counter; a failure on one candidate does not abort the others.  Because
selection and updates share the transaction, every candidate is still
pending when updated, so a whole cycle is state- and count-equivalent to
the spec's cycle built on conditional pending-to-released transitions
that skip non-pending rows without releasing capacity. -/
theorem claim3_cycle_equiv_conditional (st : DBState) (now : Nat)
    (hnd : (st.tickets.map TicketRow.id).Nodup) :
    reclaimExpiredSeats st now = reclaimExpiredSeatsCond st now := by
  unfold reclaimExpiredSeats reclaimExpiredSeatsCond
  refine reclaimLoop_eq_cond (expiredCandidates st now) st hnd ?_
    (reclaim_ids_sublist_nodup st now hnd)
  intro c hc
  unfold expiredCandidates at hc
  obtain ⟨t, htf, rfl⟩ := List.mem_map.mp hc
  obtain ⟨ht, hhit⟩ := List.mem_filter.mp htf
  exact ⟨t, ht, rfl, (of_decide_eq_true hhit).1⟩

theorem claim3_cycle_equiv_conditional_witness :
    reclaimExpiredSeats reregState 700 = reclaimExpiredSeatsCond reregState 700 :=
  claim3_cycle_equiv_conditional reregState 700 (by decide)

theorem cancelIfIn_id (ids : List Nat) (t : TicketRow) : (cancelIfIn ids t).id = t.id := by
  unfold cancelIfIn
  by_cases hm : t.id ∈ ids <;> simp [hm]

/-- C7: a hold created by Register and never confirmed: once its deadline
has passed, a single reclaim cycle restores the event's available
capacity to its pre-registration value (the hypotheses say no other
lapsed pending hold of this event exists) and marks the hold released; a
subsequent Confirm on that hold fails; the hold is never again a reclaim
candidate, and an immediate second cycle leaves the state unchanged and
reclaims zero seats — the lapsed hold is reclaimed exactly once. -/
theorem claim7_reclaim_exactly_once (st : DBState) (now now2 now3 eventID : Nat)
    (email key : String) (tid : Nat) (st1 : DBState)
    (h : registerForEvent st now eventID email key = (.ok tid, st1))
    (hids : ∀ t ∈ st.tickets, t.id < st.nextTicketId)
    (hexp : now + holdDuration ≤ now2)
    (hq : ∀ t ∈ st.tickets, t.eventId = eventID →
      ¬(t.status = TicketStatus.reserved ∧ t.expiresAt ≤ now2))
    (ev : EventRow) (hev : ev ∈ st.events) (hevid : ev.id = eventID)
    (hpos : 0 < ev.availableSpots) :
    (∃ ev2 ∈ (reclaimExpiredSeats st1 now2).1.events,
      ev2.id = eventID ∧ ev2.totalSpots = ev.totalSpots ∧
      ev2.availableSpots = ev.availableSpots) ∧
    (∃ t2 ∈ (reclaimExpiredSeats st1 now2).1.tickets,
      t2.id = tid ∧ t2.status = TicketStatus.cancelled) ∧
    (confirmReservation (reclaimExpiredSeats st1 now2).1 now3 tid email).1 = .failed ∧
    (expiredCandidates (reclaimExpiredSeats st1 now2).1 now3).countP
      (fun c => decide (c.1 = tid)) = 0 ∧
    reclaimExpiredSeats (reclaimExpiredSeats st1 now2).1 now2 =
      ((reclaimExpiredSeats st1 now2).1, 0) := by
  obtain ⟨htid, hD, hC, hst1⟩ := registerForEvent_ok_inv st now eventID email key tid st1 h
  subst htid
  obtain ⟨t0, ht0⟩ : ∃ x : TicketRow,
      x = ⟨st.nextTicketId, eventID, email, key, .reserved, now + holdDuration⟩ := ⟨_, rfl⟩
  have h1tick : st1.tickets = st.tickets ++ [t0] := by rw [hst1, ht0]
  have h1ev : st1.events = decrementSpots st.events eventID := by rw [hst1]
  have htick : (reclaimExpiredSeats st1 now2).1.tickets =
      st1.tickets.map (cancelIfIn ((expiredCandidates st1 now2).map Prod.fst)) :=
    reclaimLoop_tickets (expiredCandidates st1 now2) st1
  have hevn : (reclaimExpiredSeats st1 now2).1.events =
      st1.events.map (bumpBy (expiredCandidates st1 now2)) :=
    reclaimLoop_events (expiredCandidates st1 now2) st1
  have ht0hit : reclaimHits now2 t0 = true := by
    rw [ht0]
    exact decide_eq_true ⟨rfl, hexp⟩
  have ht0mem : t0 ∈ st1.tickets := by
    rw [h1tick]
    exact List.mem_append.mpr (Or.inr (List.mem_singleton.mpr rfl))
  have ht0id : t0.id = st.nextTicketId := by rw [ht0]
  have hmemids : t0.id ∈ (expiredCandidates st1 now2).map Prod.fst := by
    unfold expiredCandidates
    rw [List.map_map]
    exact List.mem_map.mpr ⟨t0, List.mem_filter.mpr ⟨ht0mem, ht0hit⟩, rfl⟩
  have hct0 : cancelIfIn ((expiredCandidates st1 now2).map Prod.fst) t0 =
      { t0 with status := .cancelled } := by
    unfold cancelIfIn
    rw [if_pos hmemids]
  have hcount1 : (expiredCandidates st1 now2).countP
      (fun c => decide (c.2 = eventID)) = 1 := by
    unfold expiredCandidates
    rw [List.countP_map, List.countP_filter, h1tick, List.countP_append]
    show st.tickets.countP (fun t => decide (t.eventId = eventID) && reclaimHits now2 t) +
      List.countP (fun t => decide (t.eventId = eventID) && reclaimHits now2 t) [t0] = 1
    have hold2 : st.tickets.countP
        (fun t => decide (t.eventId = eventID) && reclaimHits now2 t) = 0 := by
      rw [List.countP_eq_zero]
      intro t ht
      simp only [Bool.and_eq_true, decide_eq_true_eq]
      rintro ⟨h4, h5⟩
      exact hq t ht h4 (of_decide_eq_true h5)
    have hnew : List.countP
        (fun t => decide (t.eventId = eventID) && reclaimHits now2 t) [t0] = 1 := by
      simp only [List.countP_cons, List.countP_nil, ht0hit, Bool.and_true]
      rw [ht0]
      simp
    rw [hold2, hnew]
  have hits_ev : decrementHits eventID ev = true := decide_eq_true ⟨hevid, hpos⟩
  have hev1 : ({ ev with availableSpots := ev.availableSpots - 1 } : EventRow) ∈
      st1.events := by
    rw [h1ev]
    unfold decrementSpots
    exact List.mem_map.mpr ⟨ev, hev, by rw [if_pos hits_ev]⟩
  refine ⟨?_, ?_, ?_, ?_, reclaim_idempotent st1 now2⟩
  · rw [hevn]
    refine ⟨bumpBy (expiredCandidates st1 now2)
        { ev with availableSpots := ev.availableSpots - 1 },
      List.mem_map.mpr ⟨_, hev1, rfl⟩, hevid, rfl, ?_⟩
    unfold bumpBy
    dsimp only
    simp only [hevid]
    rw [hcount1]
    omega
  · rw [htick]
    exact ⟨{ t0 with status := .cancelled },
      List.mem_map.mpr ⟨t0, ht0mem, hct0⟩, ht0id, rfl⟩
  · have hnone : (reclaimExpiredSeats st1 now2).1.tickets.countP
        (confirmHits now3 st.nextTicketId email) = 0 := by
      rw [htick, List.countP_map, List.countP_eq_zero]
      intro u hu
      rw [h1tick] at hu
      simp only [Function.comp_apply]
      intro hcontra
      have hp := of_decide_eq_true hcontra
      rcases List.mem_append.mp hu with h3 | h3
      · have hlt := hids u h3
        have hidu := cancelIfIn_id ((expiredCandidates st1 now2).map Prod.fst) u
        rw [hidu] at hp
        obtain ⟨hp1, -⟩ := hp
        omega
      · simp only [List.mem_singleton] at h3
        subst h3
        rw [hct0] at hp
        exact absurd hp.2.2.1 (by simp)
    unfold confirmReservation
    rw [if_pos hnone]
  · unfold expiredCandidates
    rw [List.countP_map, List.countP_filter, htick, List.countP_map, List.countP_eq_zero]
    intro u hu
    rw [h1tick] at hu
    simp only [Function.comp_apply, Bool.and_eq_true, decide_eq_true_eq]
    rintro ⟨h4, h5⟩
    rcases List.mem_append.mp hu with h3 | h3
    · have hlt := hids u h3
      have hidu := cancelIfIn_id ((expiredCandidates st1 now2).map Prod.fst) u
      rw [hidu] at h4
      omega
    · simp only [List.mem_singleton] at h3
      subst h3
      rw [hct0] at h5
      exact absurd (of_decide_eq_true h5).1 (by simp)

theorem claim7_reclaim_exactly_once_witness :
    (∃ ev2 ∈ (reclaimExpiredSeats
        ⟨[⟨1, "gala", 1, 0⟩], [⟨1, 1, "u@x", "k1", .reserved, 300⟩], 2, 2⟩ 300).1.events,
      ev2.id = 1 ∧ ev2.totalSpots = (⟨1, "gala", 1, 1⟩ : EventRow).totalSpots ∧
      ev2.availableSpots = (⟨1, "gala", 1, 1⟩ : EventRow).availableSpots) ∧
    (∃ t2 ∈ (reclaimExpiredSeats
        ⟨[⟨1, "gala", 1, 0⟩], [⟨1, 1, "u@x", "k1", .reserved, 300⟩], 2, 2⟩ 300).1.tickets,
      t2.id = 1 ∧ t2.status = TicketStatus.cancelled) ∧
    (confirmReservation (reclaimExpiredSeats
        ⟨[⟨1, "gala", 1, 0⟩], [⟨1, 1, "u@x", "k1", .reserved, 300⟩], 2, 2⟩ 300).1
      400 1 "u@x").1 = .failed ∧
    (expiredCandidates (reclaimExpiredSeats
        ⟨[⟨1, "gala", 1, 0⟩], [⟨1, 1, "u@x", "k1", .reserved, 300⟩], 2, 2⟩ 300).1
      400).countP (fun c => decide (c.1 = 1)) = 0 ∧
    reclaimExpiredSeats (reclaimExpiredSeats
        ⟨[⟨1, "gala", 1, 0⟩], [⟨1, 1, "u@x", "k1", .reserved, 300⟩], 2, 2⟩ 300).1 300 =
      ((reclaimExpiredSeats
        ⟨[⟨1, "gala", 1, 0⟩], [⟨1, 1, "u@x", "k1", .reserved, 300⟩], 2, 2⟩ 300).1, 0) :=
  claim7_reclaim_exactly_once ⟨[⟨1, "gala", 1, 1⟩], [], 2, 1⟩ 0 300 400 1 "u@x" "k1" 1
    ⟨[⟨1, "gala", 1, 0⟩], [⟨1, 1, "u@x", "k1", .reserved, 300⟩], 2, 2⟩
    (by decide) (by decide) (by decide) (by decide)
    ⟨1, "gala", 1, 1⟩ (by decide) rfl (by decide)

end EventAPI
